import Mathlib

/-!
Shallow embedding of `src/SHPImporter.ts` (an SHP-to-drawing importer plugin).

Part 1: the Group Collector (`addToGroups`, `extractGroups`).
Byte buffers are opaque to this component (they are only fetched and handed
to the external parser), so a buffer is modelled as an opaque identifier.
The mutable `Record<string, ShapeGroup>` is modelled as a function map
`String → Option ShapeGroup`; `console.error` diagnostics are threaded as a
list of message strings.
-/

/-- Opaque byte buffer (the importer never inspects buffer contents). -/
abbrev Buffer := Nat

/-- `interface ShapeGroup`: one optional buffer per recognized extension. -/
structure ShapeGroup where
  shp : Option Buffer := none
  dbf : Option Buffer := none
  prj : Option Buffer := none
  cpg : Option Buffer := none
  idx : Option Buffer := none
  shx : Option Buffer := none
deriving DecidableEq, Repr

/-- `const ALLOWED_EXTENSIONS = ['shp', 'dbf', 'prj', 'cpg', 'idx', 'shx']`. -/
def ALLOWED_EXTENSIONS : List String := ["shp", "dbf", "prj", "cpg", "idx", "shx"]

/-- `title.substring(0, title.length - 4)` (JS `substring` clamps a negative
end index to 0, as does truncated subtraction here). -/
def nameOf (title : String) : String :=
  title.take (title.length - 4)

/-- `title.substring(title.length - 3)` (JS `substring` clamps a negative
start index to 0, as does truncated subtraction here). -/
def extensionOf (title : String) : String :=
  title.drop (title.length - 3)

/-- `group[extension] = bytes.buffer` for a recognized extension key
(only ever invoked after the `ALLOWED_EXTENSIONS` membership test). -/
def setExtension (g : ShapeGroup) (extension : String) (bytes : Buffer) : ShapeGroup :=
  if extension = "shp" then { g with shp := some bytes }
  else if extension = "dbf" then { g with dbf := some bytes }
  else if extension = "prj" then { g with prj := some bytes }
  else if extension = "cpg" then { g with cpg := some bytes }
  else if extension = "idx" then { g with idx := some bytes }
  else if extension = "shx" then { g with shx := some bytes }
  else g

/-- Read accessor `group[extension]` for a recognized extension key. -/
def getExtension (g : ShapeGroup) (extension : String) : Option Buffer :=
  if extension = "shp" then g.shp
  else if extension = "dbf" then g.dbf
  else if extension = "prj" then g.prj
  else if extension = "cpg" then g.cpg
  else if extension = "idx" then g.idx
  else if extension = "shx" then g.shx
  else none

/-- Whether a buffer occurs in any of the six slots of a group. -/
def groupHasBuffer (g : ShapeGroup) (b : Buffer) : Bool :=
  g.shp == some b || g.dbf == some b || g.prj == some b ||
  g.cpg == some b || g.idx == some b || g.shx == some b

/-- The accumulating `Record<string, ShapeGroup>`. -/
abbrev Groups := String → Option ShapeGroup

def emptyGroups : Groups := fun _ => none

/-- An `application/octet-stream` workspace item: a title plus its fetched
bytes (`item.get()` is modelled as immediate access to the bytes). -/
structure FileItem where
  title : String
  bytes : Buffer
deriving DecidableEq, Repr

/-- `async function addToGroups(groups, item)`: derive `name` and
`extension` from the title, create the group entry if absent, then either
reject an unrecognized extension with a diagnostic or store the bytes under
`groups[name][extension]`. State is `(groups, diagnostics so far)`. -/
def addToGroups (st : Groups × List String) (item : FileItem) : Groups × List String :=
  let bytes := item.bytes
  let title := item.title
  let name := nameOf title
  let extension := extensionOf title
  let group := match st.1 name with
    | some g => g
    | none => {}
  let groups : Groups := fun k => if k = name then some group else st.1 k
  if extension ∈ ALLOWED_EXTENSIONS then
    (fun k => if k = name then some (setExtension group extension bytes) else groups k, st.2)
  else
    (groups, st.2 ++ ["Unsupported extension " ++ extension])

/-- A workspace item: a folder (`application/vnd.folder`, children listed by
`propfind`), an opaque binary file (`application/octet-stream`), or an item
of any other MIME type. -/
inductive WorkspaceItem where
  | folder (children : List WorkspaceItem)
  | binary (title : String) (bytes : Buffer)
  | otherMime (mimeType : String)

/-- `async function extractGroups(groups, items)`: iterate the items in
order; recurse into folders, feed binary items to `addToGroups`, and log a
diagnostic for any other MIME type. -/
def extractGroups (st : Groups × List String) : List WorkspaceItem → Groups × List String
  | [] => st
  | item :: rest =>
    match item with
    | .folder children => extractGroups (extractGroups st children) rest
    | .binary title bytes => extractGroups (addToGroups st ⟨title, bytes⟩) rest
    | .otherMime mimeType =>
        extractGroups (st.1, st.2 ++ ["Unsupported MIME type " ++ mimeType]) rest

/-- The binary files of an item list, folders flattened in traversal order
(items of other MIME types contribute nothing to the groups). -/
def flattenFiles : List WorkspaceItem → List FileItem
  | [] => []
  | .folder children :: rest => flattenFiles children ++ flattenFiles rest
  | .binary title bytes :: rest => ⟨title, bytes⟩ :: flattenFiles rest
  | .otherMime _ :: rest => flattenFiles rest

/-- The groups component of one `addToGroups` step (diagnostics dropped). -/
def addFile (g : Groups) (item : FileItem) : Groups :=
  (addToGroups (g, []) item).1

/-- The `(base name, extension)` pair a file is filed under. -/
def fileKey (item : FileItem) : String × String :=
  (nameOf item.title, extensionOf item.title)

/-!
Part 2: feature property conversion (`featurePropValue`, `featureProps`).

A JS runtime value held in a feature's property map:
`PropertyValue = number | string | boolean | Date`, plus whatever a
malformed file can smuggle in at runtime (the `default` branch).  A JS
number is modelled as a rational (`Number.isInteger` tests integrality);
a `Date` is opaque here except for its `toLocaleString()` rendering, so it
is modelled by that string.
-/

/-- A runtime property value. -/
inductive JSValue where
  | num (value : ℚ)
  | str (value : String)
  | boolean (value : Bool)
  | date (localeString : String)
  | otherVal (tag : Nat)
deriving DecidableEq, Repr

/-- `Number.isInteger` on the rational model of a JS number. -/
def numberIsInteger (q : ℚ) : Bool :=
  q.den == 1

/-- The `DwgTypedObject` field produced for one property: the stored
`$value`, the optional `$type` tag, and the optional `$units`. -/
structure DwgTypedValue where
  value : JSValue
  type : Option String
  units : Option String
deriving DecidableEq, Repr

/-- `function featurePropValue(prop)`: classify by runtime type; the
`default` branch first tests `prop instanceof Date`, and otherwise logs a
diagnostic and stores the raw value with no `$type`. -/
def featurePropValue (prop : JSValue) : DwgTypedValue × List String :=
  match prop with
  | .num value =>
      ({ value := .num value,
         type := some (if numberIsInteger value then "int" else "float"),
         units := none }, [])
  | .str value =>
      ({ value := .str value, type := some "string", units := none }, [])
  | .boolean value =>
      ({ value := .boolean value, type := some "bool", units := none }, [])
  | .date localeString =>
      ({ value := .str localeString, type := some "string", units := none }, [])
  | .otherVal tag =>
      ({ value := .otherVal tag, type := none, units := none },
       ["Unsupported property type"])

/-- `function featureProps(rawProps)`: convert every property in order
(`for (const name in rawProps)`), collecting diagnostics. -/
def featureProps (rawProps : List (String × JSValue)) :
    List (String × DwgTypedValue) × List String :=
  rawProps.foldl
    (fun acc nv =>
      let fv := featurePropValue nv.2
      (acc.1 ++ [(nv.1, fv.1)], acc.2 ++ fv.2))
    ([], [])

/-!
Part 3: geometry dispatch (`coordinatesToVec3`, `scaleCoordinates`,
`featureGeometry`).  Coordinates are float tuples; floats are modelled as
rationals.  The host editor (`DwgEntityEditor`) is opaque: each `await
editor.add…` / `entity.setx('$layer', …)` call is recorded as one event in
an operation trace, in program order.
-/

structure Vec3 where
  x : ℚ
  y : ℚ
  z : ℚ
deriving DecidableEq, Repr

/-- A `vec2 | vec3` coordinate tuple. -/
inductive Coord where
  | v2 (x y : ℚ)
  | v3 (x y z : ℚ)
deriving DecidableEq, Repr

/-- `function coordinatesToVec3(coordinates)`: a tuple of length ≥ 3 keeps
its first three components; a 2-tuple is padded with `z = 0`. -/
def coordinatesToVec3 : Coord → Vec3
  | .v2 x y => ⟨x, y, 0⟩
  | .v3 x y z => ⟨x, y, z⟩

/-- `const SCALE = 1`. -/
def SCALE : ℚ := 1

/-- `function scaleCoordinates(coordinates)`: componentwise `c * SCALE`. -/
def scaleCoordinates (v : Vec3) : Vec3 :=
  ⟨v.x * SCALE, v.y * SCALE, v.z * SCALE⟩

/-- The GeoJSON geometry union of `SHPImporter.ts`, plus a constructor for
a runtime tag outside the union (the `default` branch of the dispatch). -/
inductive Geometry where
  | point (coordinates : Coord)
  | lineString (coordinates : List Coord)
  | polygon (coordinates : List (List Coord))
  | multiPoint (coordinates : List Coord)
  | multiLineString (coordinates : List (List Coord))
  | multiPolygon (coordinates : List (List (List Coord)))
  | unsupported (tag : String)
deriving DecidableEq, Repr

/-- Layer handles are opaque host objects; modelled by an identifier. -/
abbrev LayerId := Nat

/-- One host-editor call made by `featureGeometry`, in program order. -/
inductive EditorOp where
  | addCircle (center : Vec3) (radius : ℚ)
  | addLine (a b : Vec3)
  | addPolyline3d (vertices : List Vec3) (flags : Option Nat)
  | setLayer (layer : LayerId)
  | diagnostic (message : String)
deriving DecidableEq, Repr

/-- The `case 'Point'` body (also the `MultiPoint` loop body):
`editor.addCircle({center, radius: 0.005})` then `entity.setx('$layer', layer)`. -/
def pointOps (layer : LayerId) (coordinates : Coord) : List EditorOp :=
  [.addCircle (scaleCoordinates (coordinatesToVec3 coordinates)) (5 / 1000),
   .setLayer layer]

/-- The `case 'LineString'` body (also the `MultiLineString` loop body):
a line for exactly 2 coordinates, otherwise a 3D polyline through all of
them (`flags: undefined`), then `entity.setx('$layer', layer)`. -/
def lineStringOps (layer : LayerId) (coordinates : List Coord) : List EditorOp :=
  match coordinates with
  | [a, b] =>
      [.addLine (scaleCoordinates (coordinatesToVec3 a))
                (scaleCoordinates (coordinatesToVec3 b)),
       .setLayer layer]
  | _ =>
      [.addPolyline3d (coordinates.map fun p => scaleCoordinates (coordinatesToVec3 p)) none,
       .setLayer layer]

/-- The `case 'Polygon'` loop body (also the `MultiPolygon` inner loop
body): one 3D polyline per ring (`flags: undefined`), then
`entity.setx('$layer', layer)`. -/
def ringOps (layer : LayerId) (coordinates : List Coord) : List EditorOp :=
  [.addPolyline3d (coordinates.map fun p => scaleCoordinates (coordinatesToVec3 p)) none,
   .setLayer layer]

/-- `async function featureGeometry(editor, layer, rawGeometry)`: dispatch
on the geometry tag; multi-variants loop over their parts in order; an
unknown tag logs a diagnostic and creates nothing. -/
def featureGeometry (layer : LayerId) : Geometry → List EditorOp
  | .point coordinates => pointOps layer coordinates
  | .lineString coordinates => lineStringOps layer coordinates
  | .polygon coordinates => coordinates.flatMap (ringOps layer)
  | .multiPoint coordinates => coordinates.flatMap (pointOps layer)
  | .multiLineString coordinates => coordinates.flatMap (lineStringOps layer)
  | .multiPolygon coordinates =>
      coordinates.flatMap fun polygonCoordinates => polygonCoordinates.flatMap (ringOps layer)
  | .unsupported tag => [.diagnostic ("Unsupported geometry type " ++ tag)]

/-- Whether an editor op creates a primitive entity. -/
def isCreateOp : EditorOp → Bool
  | .addCircle _ _ => true
  | .addLine _ _ => true
  | .addPolyline3d _ _ => true
  | _ => false

/-- The circles of a trace, as (center, radius) pairs in order. -/
def circlesOf (ops : List EditorOp) : List (Vec3 × ℚ) :=
  ops.filterMap fun op => match op with
    | .addCircle center radius => some (center, radius)
    | _ => none

/-- The lines of a trace, as endpoint pairs in order. -/
def linesOf (ops : List EditorOp) : List (Vec3 × Vec3) :=
  ops.filterMap fun op => match op with
    | .addLine a b => some (a, b)
    | _ => none

/-- The 3D polylines of a trace, as (vertex list, flags) pairs in order. -/
def polylinesOf (ops : List EditorOp) : List (List Vec3 × Option Nat) :=
  ops.filterMap fun op => match op with
    | .addPolyline3d vertices flags => some (vertices, flags)
    | _ => none

/-- The diagnostics of an editor trace, in order. -/
def editorDiagnosticsOf (ops : List EditorOp) : List String :=
  ops.filterMap fun op => match op with
    | .diagnostic message => some message
    | _ => none

/-- Every primitive-creating op is immediately followed by a
`setx('$layer', layer)` op carrying the given layer. -/
def wellTagged (layer : LayerId) : List EditorOp → Bool
  | [] => true
  | op :: rest =>
    if isCreateOp op then
      match rest with
      | .setLayer l :: rest2 => l == layer && wellTagged layer rest2
      | _ => false
    else wellTagged layer rest

/-!
Part 4: per-group loading (`loadFeature`, `loadShapes`).

The opaque parser (`shp(group)`) is a parameter `parse`; its result is
either a feature collection or a value with some other top-level tag.  The
host drawing allocates layer handles; this is modelled by threading a
counter that yields a fresh `LayerId` per `drawing.layers.add` call.  All
host mutations and diagnostics are recorded as one trace in program order.
-/

/-- One entry of `geojson.features`: a proper `Feature` (properties and a
geometry) or an entry whose `type` tag is not `'Feature'`. -/
inductive FeatureEntry where
  | feature (properties : List (String × JSValue)) (geometry : Geometry)
  | unsupportedFeature (tag : String)

/-- The parser's top-level result: tagged `'FeatureCollection'` or some
other tag. -/
inductive GeoJSONResult where
  | featureCollection (features : List FeatureEntry)
  | unsupportedGeoJSON (tag : String)

/-- One host mutation or diagnostic performed while loading groups. -/
inductive ImportOp where
  | addLayer (id : LayerId) (typeMarker : String) (name : String)
      (fields : List (String × DwgTypedValue))
  | setDisabled (id : LayerId) (disabled : Bool)
  | setParentLayer (child : LayerId) (parent : LayerId)
  | editor (op : EditorOp)
  | diag (message : String)
deriving DecidableEq, Repr

/-- `async function loadFeature(editor, drawing, feature)`: convert the
properties, add a child layer named `''` with type marker `SmdxElement`
carrying them, disable it, then run the geometry dispatch against it.
Returns (trace, next fresh layer id, the created layer's id). -/
def loadFeature (nextLayer : LayerId) (properties : List (String × JSValue))
    (geometry : Geometry) : List ImportOp × LayerId × LayerId :=
  let fp := featureProps properties
  let layer := nextLayer
  ((fp.2.map .diag) ++
   [.addLayer layer "SmdxElement" "" fp.1, .setDisabled layer true] ++
   (featureGeometry layer geometry).map .editor,
   nextLayer + 1, layer)

/-- The per-feature loop of `loadShapes`: a valid feature is loaded and its
child layer reparented under `parent` via `layer.setx('$layer', parent)`;
any other `feature.type` logs a diagnostic and is skipped. -/
def loadFeatures (nextLayer : LayerId) (parent : LayerId) :
    List FeatureEntry → List ImportOp × LayerId
  | [] => ([], nextLayer)
  | .feature properties geometry :: rest =>
      let lf := loadFeature nextLayer properties geometry
      let lr := loadFeatures lf.2.1 parent rest
      (lf.1 ++ [.setParentLayer lf.2.2 parent] ++ lr.1, lr.2)
  | .unsupportedFeature tag :: rest =>
      let lr := loadFeatures nextLayer parent rest
      (.diag ("Unsupported feature type " ++ tag) :: lr.1, lr.2)

/-- The per-group body of `loadShapes`: a `'FeatureCollection'` result gets
one top-level disabled layer named after the group and its features loaded;
any other top-level tag logs a diagnostic and the whole group is skipped. -/
def loadShapesGroup (nextLayer : LayerId) (name : String) (parsed : GeoJSONResult) :
    List ImportOp × LayerId :=
  match parsed with
  | .featureCollection features =>
      let parent := nextLayer
      let lf := loadFeatures (nextLayer + 1) parent features
      (.addLayer parent "SmdxElement" name [] :: .setDisabled parent true :: lf.1, lf.2)
  | .unsupportedGeoJSON tag =>
      ([.diag ("Unsupported GeoJSON type " ++ tag)], nextLayer)

/-- `async function loadShapes(editor, drawing, groups)`: process the group
entries in mapping order, invoking the opaque parser once per group. -/
def loadShapes (nextLayer : LayerId) (parse : ShapeGroup → GeoJSONResult) :
    List (String × ShapeGroup) → List ImportOp × LayerId
  | [] => ([], nextLayer)
  | (name, group) :: rest =>
      let g := loadShapesGroup nextLayer name (parse group)
      let r := loadShapes g.2 parse rest
      (g.1 ++ r.1, r.2)

/-- The layers created in an import trace, in creation order. -/
def importLayersOf (ops : List ImportOp) : List LayerId :=
  ops.filterMap fun op => match op with
    | .addLayer id _ _ _ => some id
    | _ => none

/-- The primitive-creating editor ops of an import trace, in order. -/
def importPrimitivesOf (ops : List ImportOp) : List EditorOp :=
  ops.filterMap fun op => match op with
    | .editor eop => if isCreateOp eop then some eop else none
    | _ => none

/-- The diagnostics of an import trace, in order. -/
def importDiagsOf (ops : List ImportOp) : List String :=
  ops.filterMap fun op => match op with
    | .diag message => some message
    | _ => none

/-!
Part 5: the top-level `SHPImporter.import` operation.

Its `try / catch / finally` control flow is embedded explicitly.  The
points at which an exception can escape the per-unit handling are the item
fetch / parser / host-editor calls; they are abstracted by three success
flags plus the number of entities the mutation phase creates before it
returns or throws.  Each progress/session/reporting call is one event.
-/

/-- One observable step of a run of `SHPImporter.import`. -/
inductive RunEvent where
  | beginProgress
  | outputInfo
  | progressDetails
  | fetchItems
  | beginEdit
  | createdEntity (k : Nat)
  | endEdit
  | errorReported
  | endProgress
  | deletedEntity (k : Nat)
deriving DecidableEq, Repr

/-- The body of the outer `try` of `import`: emit the info message, return
early if the drawing has no model layout, fetch and group the items (may
throw), begin the edit session (may throw), then run `loadShapes` guarded
by `finally { endEdit }` (the mutation phase creates `created` entities and
then either returns or throws).  Returns (events, whether an exception
escaped the body). -/
def importBody (layoutPresent fetchOk beginOk : Bool) (created : Nat) (loadOk : Bool) :
    List RunEvent × Bool :=
  if layoutPresent = false then
    ([.outputInfo], false)
  else if fetchOk = false then
    ([.outputInfo, .progressDetails, .fetchItems], true)
  else if beginOk = false then
    ([.outputInfo, .progressDetails, .fetchItems], true)
  else
    ([.outputInfo, .progressDetails, .fetchItems, .beginEdit] ++
      (List.range created).map RunEvent.createdEntity ++ [.endEdit],
     !loadOk)

/-- `async import(workspace, model)`: bracket the body with
`beginProgress` / `endProgress`; an exception escaping the body is caught
once by the `catch` and reported, then the `finally` ends the progress. -/
def importRun (layoutPresent fetchOk beginOk : Bool) (created : Nat) (loadOk : Bool) :
    List RunEvent :=
  let body := importBody layoutPresent fetchOk beginOk created loadOk
  .beginProgress :: body.1 ++ (if body.2 then [.errorReported] else []) ++ [.endProgress]

/-!
Helper lemmas about traces.
-/

theorem circlesOf_append (l r : List EditorOp) :
    circlesOf (l ++ r) = circlesOf l ++ circlesOf r := by
  simp [circlesOf, List.filterMap_append]

theorem linesOf_append (l r : List EditorOp) :
    linesOf (l ++ r) = linesOf l ++ linesOf r := by
  simp [linesOf, List.filterMap_append]

theorem polylinesOf_append (l r : List EditorOp) :
    polylinesOf (l ++ r) = polylinesOf l ++ polylinesOf r := by
  simp [polylinesOf, List.filterMap_append]

theorem editorDiagnosticsOf_append (l r : List EditorOp) :
    editorDiagnosticsOf (l ++ r) = editorDiagnosticsOf l ++ editorDiagnosticsOf r := by
  simp [editorDiagnosticsOf, List.filterMap_append]

theorem circlesOf_pointOps (layer : LayerId) (p : Coord) :
    circlesOf (pointOps layer p) =
      [(scaleCoordinates (coordinatesToVec3 p), (5 / 1000 : ℚ))] := rfl

theorem linesOf_pointOps (layer : LayerId) (p : Coord) :
    linesOf (pointOps layer p) = [] := rfl

theorem polylinesOf_pointOps (layer : LayerId) (p : Coord) :
    polylinesOf (pointOps layer p) = [] := rfl

theorem polylinesOf_ringOps (layer : LayerId) (ring : List Coord) :
    polylinesOf (ringOps layer ring) =
      [(ring.map fun p => scaleCoordinates (coordinatesToVec3 p), none)] := rfl

theorem circlesOf_ringOps (layer : LayerId) (ring : List Coord) :
    circlesOf (ringOps layer ring) = [] := rfl

theorem linesOf_ringOps (layer : LayerId) (ring : List Coord) :
    linesOf (ringOps layer ring) = [] := rfl

theorem editorDiagnosticsOf_ringOps (layer : LayerId) (ring : List Coord) :
    editorDiagnosticsOf (ringOps layer ring) = [] := rfl

theorem circlesOf_flatMap_pointOps (layer : LayerId) (pts : List Coord) :
    circlesOf (pts.flatMap (pointOps layer)) =
      pts.map (fun p => (scaleCoordinates (coordinatesToVec3 p), (5 / 1000 : ℚ))) := by
  induction pts with
  | nil => rfl
  | cons p pts ih =>
      rw [List.flatMap_cons, circlesOf_append, circlesOf_pointOps, ih, List.map_cons]
      rfl

theorem linesOf_flatMap_pointOps (layer : LayerId) (pts : List Coord) :
    linesOf (pts.flatMap (pointOps layer)) = [] := by
  induction pts with
  | nil => rfl
  | cons p pts ih =>
      rw [List.flatMap_cons, linesOf_append, linesOf_pointOps, ih]
      rfl

theorem polylinesOf_flatMap_pointOps (layer : LayerId) (pts : List Coord) :
    polylinesOf (pts.flatMap (pointOps layer)) = [] := by
  induction pts with
  | nil => rfl
  | cons p pts ih =>
      rw [List.flatMap_cons, polylinesOf_append, polylinesOf_pointOps, ih]
      rfl

theorem polylinesOf_flatMap_ringOps (layer : LayerId) (rings : List (List Coord)) :
    polylinesOf (rings.flatMap (ringOps layer)) =
      rings.map (fun ring => (ring.map fun p => scaleCoordinates (coordinatesToVec3 p),
        (none : Option Nat))) := by
  induction rings with
  | nil => rfl
  | cons ring rings ih =>
      rw [List.flatMap_cons, polylinesOf_append, polylinesOf_ringOps, ih, List.map_cons]
      rfl

theorem circlesOf_flatMap_ringOps (layer : LayerId) (rings : List (List Coord)) :
    circlesOf (rings.flatMap (ringOps layer)) = [] := by
  induction rings with
  | nil => rfl
  | cons ring rings ih =>
      rw [List.flatMap_cons, circlesOf_append, circlesOf_ringOps, ih]
      rfl

theorem linesOf_flatMap_ringOps (layer : LayerId) (rings : List (List Coord)) :
    linesOf (rings.flatMap (ringOps layer)) = [] := by
  induction rings with
  | nil => rfl
  | cons ring rings ih =>
      rw [List.flatMap_cons, linesOf_append, linesOf_ringOps, ih]
      rfl

theorem editorDiagnosticsOf_flatMap_ringOps (layer : LayerId) (rings : List (List Coord)) :
    editorDiagnosticsOf (rings.flatMap (ringOps layer)) = [] := by
  induction rings with
  | nil => rfl
  | cons ring rings ih =>
      rw [List.flatMap_cons, editorDiagnosticsOf_append, editorDiagnosticsOf_ringOps, ih]
      rfl

theorem polylinesOf_multiPolygonOps (layer : LayerId) (polys : List (List (List Coord))) :
    polylinesOf (polys.flatMap fun poly => poly.flatMap (ringOps layer)) =
      polys.flatMap (fun poly => poly.map
        (fun ring => (ring.map fun p => scaleCoordinates (coordinatesToVec3 p),
          (none : Option Nat)))) := by
  induction polys with
  | nil => rfl
  | cons poly polys ih =>
      rw [List.flatMap_cons, polylinesOf_append, polylinesOf_flatMap_ringOps, ih,
        List.flatMap_cons]

theorem circlesOf_multiPolygonOps (layer : LayerId) (polys : List (List (List Coord))) :
    circlesOf (polys.flatMap fun poly => poly.flatMap (ringOps layer)) = [] := by
  induction polys with
  | nil => rfl
  | cons poly polys ih =>
      rw [List.flatMap_cons, circlesOf_append, circlesOf_flatMap_ringOps, ih]
      rfl

theorem linesOf_multiPolygonOps (layer : LayerId) (polys : List (List (List Coord))) :
    linesOf (polys.flatMap fun poly => poly.flatMap (ringOps layer)) = [] := by
  induction polys with
  | nil => rfl
  | cons poly polys ih =>
      rw [List.flatMap_cons, linesOf_append, linesOf_flatMap_ringOps, ih]
      rfl

theorem editorDiagnosticsOf_multiPolygonOps (layer : LayerId)
    (polys : List (List (List Coord))) :
    editorDiagnosticsOf (polys.flatMap fun poly => poly.flatMap (ringOps layer)) = [] := by
  induction polys with
  | nil => rfl
  | cons poly polys ih =>
      rw [List.flatMap_cons, editorDiagnosticsOf_append, editorDiagnosticsOf_flatMap_ringOps, ih]
      rfl

theorem lineStringOps_ne_two (layer : LayerId) (cs : List Coord) (h : cs.length ≠ 2) :
    lineStringOps layer cs =
      [.addPolyline3d (cs.map fun p => scaleCoordinates (coordinatesToVec3 p)) none,
       .setLayer layer] := by
  match cs with
  | [] => rfl
  | [a] => rfl
  | [a, b] => exact absurd rfl h
  | a :: b :: c :: tl => rfl

/-- C3: a LineString (or each MultiLineString part) with exactly 2
coordinates yields exactly one line primitive and no polyline; with N ≠ 2
coordinates it yields exactly one 3D polyline whose vertex list has N
entries (one per coordinate, in order) and no line. -/
theorem claim_C3_linestring_dispatch (layer : LayerId) (cs : List Coord)
    (parts : List (List Coord)) :
    featureGeometry layer (.lineString cs) = lineStringOps layer cs ∧
    featureGeometry layer (.multiLineString parts) = parts.flatMap (lineStringOps layer) ∧
    (cs.length = 2 →
      (linesOf (lineStringOps layer cs)).length = 1 ∧
      polylinesOf (lineStringOps layer cs) = []) ∧
    (cs.length ≠ 2 →
      polylinesOf (lineStringOps layer cs) =
        [(cs.map fun p => scaleCoordinates (coordinatesToVec3 p), none)] ∧
      (cs.map fun p => scaleCoordinates (coordinatesToVec3 p)).length = cs.length ∧
      linesOf (lineStringOps layer cs) = []) := by
  refine ⟨rfl, rfl, ?_, ?_⟩
  · intro h2
    obtain ⟨a, b, rfl⟩ := List.length_eq_two.mp h2
    exact ⟨rfl, rfl⟩
  · intro h2
    rw [lineStringOps_ne_two layer cs h2]
    exact ⟨rfl, by simp, rfl⟩

/-- Witness for C3 at concrete inputs: a 2-point part makes one line and no
polyline; a 3-point part makes one polyline with 3 vertices. -/
theorem claim_C3_linestring_dispatch_witness :
    (linesOf (lineStringOps 0 [Coord.v2 0 0, Coord.v2 1 1])).length = 1 ∧
    polylinesOf (lineStringOps 0 [Coord.v2 0 0, Coord.v2 1 1]) = [] ∧
    polylinesOf (lineStringOps 0 [Coord.v2 0 0, Coord.v2 1 1, Coord.v2 2 2]) =
      [([Coord.v2 0 0, Coord.v2 1 1, Coord.v2 2 2].map fun p =>
          scaleCoordinates (coordinatesToVec3 p), none)] := by
  refine ⟨?_, ?_, ?_⟩
  · exact ((claim_C3_linestring_dispatch 0 [Coord.v2 0 0, Coord.v2 1 1] []).2.2.1
      (by decide)).1
  · exact ((claim_C3_linestring_dispatch 0 [Coord.v2 0 0, Coord.v2 1 1] []).2.2.1
      (by decide)).2
  · exact ((claim_C3_linestring_dispatch 0 [Coord.v2 0 0, Coord.v2 1 1, Coord.v2 2 2]
      []).2.2.2 (by decide)).1

/-- C4: a Polygon with R rings yields exactly R polyline primitives, one
per ring in ring order, each with flags unset (not closed), and no other
primitive kind (no mesh, no circle, no line) and no diagnostic; a
MultiPolygon does the same per contained polygon, flattened two levels. -/
theorem claim_C4_polygon_rings (layer : LayerId) (rings : List (List Coord))
    (polys : List (List (List Coord))) :
    featureGeometry layer (.polygon rings) = rings.flatMap (ringOps layer) ∧
    polylinesOf (featureGeometry layer (.polygon rings)) =
      rings.map (fun ring => (ring.map fun p => scaleCoordinates (coordinatesToVec3 p),
        (none : Option Nat))) ∧
    (polylinesOf (featureGeometry layer (.polygon rings))).length = rings.length ∧
    circlesOf (featureGeometry layer (.polygon rings)) = [] ∧
    linesOf (featureGeometry layer (.polygon rings)) = [] ∧
    editorDiagnosticsOf (featureGeometry layer (.polygon rings)) = [] ∧
    polylinesOf (featureGeometry layer (.multiPolygon polys)) =
      polys.flatMap (fun poly => poly.map
        (fun ring => (ring.map fun p => scaleCoordinates (coordinatesToVec3 p),
          (none : Option Nat)))) ∧
    circlesOf (featureGeometry layer (.multiPolygon polys)) = [] ∧
    linesOf (featureGeometry layer (.multiPolygon polys)) = [] ∧
    editorDiagnosticsOf (featureGeometry layer (.multiPolygon polys)) = [] := by
  refine ⟨rfl, ?_, ?_, ?_, ?_, ?_, ?_, ?_, ?_, ?_⟩
  · exact polylinesOf_flatMap_ringOps layer rings
  · rw [show featureGeometry layer (.polygon rings) = rings.flatMap (ringOps layer) from rfl,
      polylinesOf_flatMap_ringOps layer rings, List.length_map]
  · exact circlesOf_flatMap_ringOps layer rings
  · exact linesOf_flatMap_ringOps layer rings
  · exact editorDiagnosticsOf_flatMap_ringOps layer rings
  · exact polylinesOf_multiPolygonOps layer polys
  · exact circlesOf_multiPolygonOps layer polys
  · exact linesOf_multiPolygonOps layer polys
  · exact editorDiagnosticsOf_multiPolygonOps layer polys

/-- C5: a Point (and each MultiPoint point) yields exactly one circle of
radius 0.005 centered at the coordinate promoted to 3D (a 2-tuple gets
`z = 0`) and multiplied by the constant scale factor, and nothing else. -/
theorem claim_C5_point_circles (layer : LayerId) (c : Coord) (pts : List Coord) (x y : ℚ) :
    featureGeometry layer (.point c) =
      [.addCircle (scaleCoordinates (coordinatesToVec3 c)) (5 / 1000), .setLayer layer] ∧
    circlesOf (featureGeometry layer (.point c)) =
      [(scaleCoordinates (coordinatesToVec3 c), (5 / 1000 : ℚ))] ∧
    circlesOf (featureGeometry layer (.multiPoint pts)) =
      pts.map (fun p => (scaleCoordinates (coordinatesToVec3 p), (5 / 1000 : ℚ))) ∧
    linesOf (featureGeometry layer (.multiPoint pts)) = [] ∧
    polylinesOf (featureGeometry layer (.multiPoint pts)) = [] ∧
    coordinatesToVec3 (.v2 x y) = ⟨x, y, 0⟩ ∧
    coordinatesToVec3 (.v3 x y 0) = ⟨x, y, 0⟩ ∧
    scaleCoordinates ⟨x, y, 0⟩ = ⟨x * SCALE, y * SCALE, 0 * SCALE⟩ := by
  refine ⟨rfl, rfl, ?_, ?_, ?_, rfl, rfl, rfl⟩
  · exact circlesOf_flatMap_pointOps layer pts
  · exact linesOf_flatMap_pointOps layer pts
  · exact polylinesOf_flatMap_pointOps layer pts

theorem featureProps_foldl (l : List (String × JSValue)) :
    ∀ acc : List (String × DwgTypedValue) × List String,
      l.foldl (fun acc nv =>
        let fv := featurePropValue nv.2
        (acc.1 ++ [(nv.1, fv.1)], acc.2 ++ fv.2)) acc =
      (acc.1 ++ l.map (fun nv => (nv.1, (featurePropValue nv.2).1)),
       acc.2 ++ l.flatMap (fun nv => (featurePropValue nv.2).2)) := by
  induction l with
  | nil => intro acc; simp
  | cons a l ih =>
      intro acc
      rw [List.foldl_cons, ih, List.map_cons, List.flatMap_cons]
      simp

theorem featureProps_eq (rawProps : List (String × JSValue)) :
    featureProps rawProps =
      (rawProps.map (fun nv => (nv.1, (featurePropValue nv.2).1)),
       rawProps.flatMap (fun nv => (featurePropValue nv.2).2)) := by
  rw [featureProps, featureProps_foldl]
  simp

/-- C6: the converted property record classifies each raw value by runtime
type: a number becomes a typed numeric field, subtype `int` when integral
and `float` otherwise, with no unit; a string a typed string field; a
boolean a typed boolean field; a Date a typed string field holding its
locale-formatted rendering; any other value is stored raw with no type tag
and a diagnostic is emitted.  `featureProps` applies this to every key. -/
theorem claim_C6_property_classification (rawProps : List (String × JSValue))
    (q : ℚ) (s ls : String) (b : Bool) (t : Nat) :
    (featureProps rawProps).1 =
      rawProps.map (fun nv => (nv.1, (featurePropValue nv.2).1)) ∧
    (featureProps rawProps).2 =
      rawProps.flatMap (fun nv => (featurePropValue nv.2).2) ∧
    featurePropValue (.num q) =
      ({ value := .num q,
         type := some (if q.den = 1 then "int" else "float"),
         units := none }, []) ∧
    featurePropValue (.str s) =
      ({ value := .str s, type := some "string", units := none }, []) ∧
    featurePropValue (.boolean b) =
      ({ value := .boolean b, type := some "bool", units := none }, []) ∧
    featurePropValue (.date ls) =
      ({ value := .str ls, type := some "string", units := none }, []) ∧
    featurePropValue (.otherVal t) =
      ({ value := .otherVal t, type := none, units := none },
       ["Unsupported property type"]) := by
  refine ⟨?_, ?_, ?_, rfl, rfl, rfl, rfl⟩
  · rw [featureProps_eq]
  · rw [featureProps_eq]
  · by_cases hq : q.den = 1 <;> simp [featurePropValue, numberIsInteger, hq]

theorem wellTagged_cons_create (layer : LayerId) (op : EditorOp)
    (h : isCreateOp op = true) (rest : List EditorOp) :
    wellTagged layer (op :: .setLayer layer :: rest) = wellTagged layer rest := by
  simp [wellTagged, h]

theorem wellTagged_pointOps_append (layer : LayerId) (c : Coord) (rest : List EditorOp) :
    wellTagged layer (pointOps layer c ++ rest) = wellTagged layer rest :=
  wellTagged_cons_create layer
    (.addCircle (scaleCoordinates (coordinatesToVec3 c)) (5 / 1000)) rfl rest

theorem wellTagged_ringOps_append (layer : LayerId) (ring : List Coord)
    (rest : List EditorOp) :
    wellTagged layer (ringOps layer ring ++ rest) = wellTagged layer rest :=
  wellTagged_cons_create layer
    (.addPolyline3d (ring.map fun p => scaleCoordinates (coordinatesToVec3 p)) none) rfl rest

theorem wellTagged_lineStringOps_append (layer : LayerId) (cs : List Coord)
    (rest : List EditorOp) :
    wellTagged layer (lineStringOps layer cs ++ rest) = wellTagged layer rest := by
  match cs with
  | [] =>
      exact wellTagged_cons_create layer
        (.addPolyline3d (([] : List Coord).map fun p => scaleCoordinates (coordinatesToVec3 p))
          none) rfl rest
  | [a] =>
      exact wellTagged_cons_create layer
        (.addPolyline3d ([a].map fun p => scaleCoordinates (coordinatesToVec3 p)) none) rfl rest
  | [a, b] =>
      exact wellTagged_cons_create layer
        (.addLine (scaleCoordinates (coordinatesToVec3 a))
          (scaleCoordinates (coordinatesToVec3 b))) rfl rest
  | a :: b :: c :: tl =>
      exact wellTagged_cons_create layer
        (.addPolyline3d ((a :: b :: c :: tl).map fun p => scaleCoordinates (coordinatesToVec3 p))
          none) rfl rest

theorem wellTagged_flatMap_append {α : Type} (layer : LayerId) (f : α → List EditorOp)
    (hf : ∀ a rest, wellTagged layer (f a ++ rest) = wellTagged layer rest) :
    ∀ (l : List α) (rest : List EditorOp),
      wellTagged layer (l.flatMap f ++ rest) = wellTagged layer rest := by
  intro l
  induction l with
  | nil => intro rest; rfl
  | cons a l ih =>
      intro rest
      rw [List.flatMap_cons, List.append_assoc, hf, ih]

/-- C7: in the editor-call sequence produced for any feature geometry,
every created primitive is tagged with the feature's child layer by the
immediately following `setx('$layer', …)` call, before the next primitive
of that feature is created — including multi-primitive features. -/
theorem claim_C7_immediate_tagging (layer : LayerId) (g : Geometry) :
    wellTagged layer (featureGeometry layer g) = true := by
  cases g with
  | point c =>
      have h := wellTagged_pointOps_append layer c []
      rw [List.append_nil] at h
      exact h
  | lineString cs =>
      have h := wellTagged_lineStringOps_append layer cs []
      rw [List.append_nil] at h
      exact h
  | polygon rings =>
      have h := wellTagged_flatMap_append layer (ringOps layer)
        (wellTagged_ringOps_append layer) rings []
      rw [List.append_nil] at h
      exact h
  | multiPoint pts =>
      have h := wellTagged_flatMap_append layer (pointOps layer)
        (wellTagged_pointOps_append layer) pts []
      rw [List.append_nil] at h
      exact h
  | multiLineString parts =>
      have h := wellTagged_flatMap_append layer (lineStringOps layer)
        (wellTagged_lineStringOps_append layer) parts []
      rw [List.append_nil] at h
      exact h
  | multiPolygon polys =>
      have h := wellTagged_flatMap_append layer
        (fun poly => poly.flatMap (ringOps layer))
        (fun poly rest => wellTagged_flatMap_append layer (ringOps layer)
          (wellTagged_ringOps_append layer) poly rest) polys []
      rw [List.append_nil] at h
      exact h
  | unsupported tag => rfl

/-- C2: a group whose parser result has a top-level tag other than
`'FeatureCollection'` contributes exactly one diagnostic and nothing else
to the import trace: no layer and no primitive is created for it, no layer
handle is allocated, and the remaining groups are processed unchanged. -/
theorem claim_C2_non_feature_collection_skipped (nextLayer : LayerId)
    (parse : ShapeGroup → GeoJSONResult) (entries : List (String × ShapeGroup))
    (name tag : String) (group : ShapeGroup)
    (h : parse group = .unsupportedGeoJSON tag) :
    (loadShapes nextLayer parse ((name, group) :: entries)).1 =
      .diag ("Unsupported GeoJSON type " ++ tag) ::
        (loadShapes nextLayer parse entries).1 ∧
    (loadShapes nextLayer parse ((name, group) :: entries)).2 =
      (loadShapes nextLayer parse entries).2 ∧
    importLayersOf [ImportOp.diag ("Unsupported GeoJSON type " ++ tag)] = [] ∧
    importPrimitivesOf [ImportOp.diag ("Unsupported GeoJSON type " ++ tag)] = [] := by
  have e : loadShapesGroup nextLayer name (parse group) =
      ([.diag ("Unsupported GeoJSON type " ++ tag)], nextLayer) := by
    rw [h]
    rfl
  refine ⟨?_, ?_, rfl, rfl⟩
  · simp only [loadShapes, e]
    rfl
  · simp only [loadShapes, e]

/-- Witness for C2: one group named `parcels` whose parse result is tagged
`Topology` yields just the diagnostic, no layers, no primitives. -/
theorem claim_C2_non_feature_collection_skipped_witness :
    (loadShapes 0 (fun _ => .unsupportedGeoJSON "Topology") [("parcels", {})]).1 =
      .diag ("Unsupported GeoJSON type " ++ "Topology") ::
        (loadShapes 0 (fun _ => GeoJSONResult.unsupportedGeoJSON "Topology") []).1 ∧
    (loadShapes 0 (fun _ => .unsupportedGeoJSON "Topology") [("parcels", {})]).2 =
      (loadShapes 0 (fun _ => GeoJSONResult.unsupportedGeoJSON "Topology") []).2 ∧
    importLayersOf [ImportOp.diag ("Unsupported GeoJSON type " ++ "Topology")] = [] ∧
    importPrimitivesOf [ImportOp.diag ("Unsupported GeoJSON type " ++ "Topology")] = [] :=
  claim_C2_non_feature_collection_skipped 0 (fun _ => .unsupportedGeoJSON "Topology")
    [] "parcels" "Topology" {} rfl

theorem getLast_append_singleton {α : Type} (l1 l2 : List α) (e : α) :
    (l1 ++ (l2 ++ [e])).getLast? = some e := by
  rw [← List.append_assoc, List.getLast?_concat]

theorem importRun_beginEdit_endEdit (layoutPresent fetchOk beginOk loadOk : Bool)
    (created : Nat) :
    RunEvent.beginEdit ∈ importRun layoutPresent fetchOk beginOk created loadOk →
      RunEvent.endEdit ∈ importRun layoutPresent fetchOk beginOk created loadOk := by
  cases layoutPresent <;> cases fetchOk <;> cases beginOk <;> cases loadOk <;>
    intro hmem <;> simp [importRun, importBody] at hmem ⊢

theorem importRun_getLast (layoutPresent fetchOk beginOk loadOk : Bool) (created : Nat) :
    (importRun layoutPresent fetchOk beginOk created loadOk).getLast? =
      some RunEvent.endProgress := by
  simp only [importRun]
  exact List.getLast?_concat _

theorem importRun_error_count (layoutPresent fetchOk beginOk loadOk : Bool) (created : Nat) :
    (importRun layoutPresent fetchOk beginOk created loadOk).count RunEvent.errorReported =
      (if layoutPresent && (!fetchOk || !beginOk || !loadOk) then 1 else 0) := by
  have hmap : ((List.range created).map RunEvent.createdEntity).count
      RunEvent.errorReported = 0 := by
    rw [List.count_eq_zero]
    simp
  cases layoutPresent <;> cases fetchOk <;> cases beginOk <;> cases loadOk <;>
    simp [importRun, importBody, List.count_append, List.count_cons, hmap]

theorem importRun_no_delete (layoutPresent fetchOk beginOk loadOk : Bool)
    (created : Nat) (k : Nat) :
    RunEvent.deletedEntity k ∉ importRun layoutPresent fetchOk beginOk created loadOk := by
  cases layoutPresent <;> cases fetchOk <;> cases beginOk <;> cases loadOk <;>
    simp [importRun, importBody]

theorem importRun_created_mem (loadOk : Bool) (created : Nat) (k : Nat) (hk : k < created) :
    RunEvent.createdEntity k ∈ importRun true true true created loadOk := by
  cases loadOk <;> simp [importRun, importBody] <;> exact hk

/-- C8: once the edit session is begun it is ended on every exit path, the
progress handle is always ended (and is the last action), a failure
escaping the per-unit handling is reported exactly once as an error by the
top-level catch, and no already-created entity is ever rolled back (the
run contains every created entity and no deletion). -/
theorem claim_C8_session_bracketing (layoutPresent fetchOk beginOk loadOk : Bool)
    (created : Nat) :
    (RunEvent.beginEdit ∈ importRun layoutPresent fetchOk beginOk created loadOk →
      RunEvent.endEdit ∈ importRun layoutPresent fetchOk beginOk created loadOk) ∧
    (importRun layoutPresent fetchOk beginOk created loadOk).getLast? =
      some RunEvent.endProgress ∧
    (importRun layoutPresent fetchOk beginOk created loadOk).count RunEvent.errorReported =
      (if layoutPresent && (!fetchOk || !beginOk || !loadOk) then 1 else 0) ∧
    (∀ k, RunEvent.deletedEntity k ∉ importRun layoutPresent fetchOk beginOk created loadOk) ∧
    (layoutPresent = true → fetchOk = true → beginOk = true →
      ∀ k, k < created →
        RunEvent.createdEntity k ∈ importRun layoutPresent fetchOk beginOk created loadOk) := by
  refine ⟨importRun_beginEdit_endEdit layoutPresent fetchOk beginOk loadOk created,
    importRun_getLast layoutPresent fetchOk beginOk loadOk created,
    importRun_error_count layoutPresent fetchOk beginOk loadOk created,
    fun k => importRun_no_delete layoutPresent fetchOk beginOk loadOk created k,
    ?_⟩
  intro h1 h2 h3 k hk
  subst h1; subst h2; subst h3
  exact importRun_created_mem loadOk created k hk

/-- Witness for C8: a run whose mutation phase throws after creating 2
entities still ends the edit session, reports one error, ends progress
last, keeps both entities, and deletes nothing. -/
theorem claim_C8_session_bracketing_witness :
    (RunEvent.beginEdit ∈ importRun true true true 2 false →
      RunEvent.endEdit ∈ importRun true true true 2 false) ∧
    (importRun true true true 2 false).getLast? = some RunEvent.endProgress ∧
    (importRun true true true 2 false).count RunEvent.errorReported =
      (if true && (!true || !true || !false) then 1 else 0) ∧
    (∀ k, RunEvent.deletedEntity k ∉ importRun true true true 2 false) ∧
    (true = true → true = true → true = true →
      ∀ k, k < 2 → RunEvent.createdEntity k ∈ importRun true true true 2 false) :=
  claim_C8_session_bracketing true true true false 2

theorem addToGroups_fst (st : Groups × List String) (f : FileItem) :
    (addToGroups st f).1 = addFile st.1 f := by
  unfold addFile addToGroups
  by_cases he : extensionOf f.title ∈ ALLOWED_EXTENSIONS <;> simp [he]

theorem addFile_apply_eq (G : Groups) (f : FileItem) (k : String)
    (h : k = nameOf f.title) :
    addFile G f k =
      some (if extensionOf f.title ∈ ALLOWED_EXTENSIONS then
        setExtension ((G k).getD {}) (extensionOf f.title) f.bytes
      else (G k).getD {}) := by
  subst h
  unfold addFile addToGroups
  by_cases he : extensionOf f.title ∈ ALLOWED_EXTENSIONS <;> simp [he] <;>
    cases G (nameOf f.title) <;> rfl

theorem addFile_apply_ne (G : Groups) (f : FileItem) (k : String)
    (h : k ≠ nameOf f.title) :
    addFile G f k = G k := by
  unfold addFile addToGroups
  by_cases he : extensionOf f.title ∈ ALLOWED_EXTENSIONS <;> simp [he, h]

theorem extractGroups_fst (st : Groups × List String) (items : List WorkspaceItem) :
    (extractGroups st items).1 = (flattenFiles items).foldl addFile st.1 := by
  induction st, items using extractGroups.induct with
  | case1 st => rw [extractGroups, flattenFiles]; rfl
  | case2 st rest children ih1 ih2 =>
      rw [extractGroups, flattenFiles, List.foldl_append, ← ih1, ← ih2]
  | case3 st rest title bytes ih =>
      rw [extractGroups, flattenFiles, List.foldl_cons, ← addToGroups_fst, ← ih]
  | case4 st rest mimeType ih =>
      rw [extractGroups, flattenFiles, ← ih]

theorem setExtension_comm (g : ShapeGroup) (e1 e2 : String) (b1 b2 : Buffer)
    (hne : e1 ≠ e2) (h1 : e1 ∈ ALLOWED_EXTENSIONS) (h2 : e2 ∈ ALLOWED_EXTENSIONS) :
    setExtension (setExtension g e1 b1) e2 b2 =
      setExtension (setExtension g e2 b2) e1 b1 := by
  simp only [ALLOWED_EXTENSIONS, List.mem_cons, List.not_mem_nil, or_false] at h1 h2
  rcases h1 with rfl | rfl | rfl | rfl | rfl | rfl <;>
    rcases h2 with rfl | rfl | rfl | rfl | rfl | rfl <;>
    first
      | exact absurd rfl hne
      | rfl

theorem getExtension_setExtension (g : ShapeGroup) (e : String) (b : Buffer)
    (h : e ∈ ALLOWED_EXTENSIONS) :
    getExtension (setExtension g e b) e = some b := by
  simp only [ALLOWED_EXTENSIONS, List.mem_cons, List.not_mem_nil, or_false] at h
  rcases h with rfl | rfl | rfl | rfl | rfl | rfl <;> rfl

theorem addFile_comm (a b : FileItem) (hkey : fileKey a ≠ fileKey b) (G : Groups) :
    addFile (addFile G a) b = addFile (addFile G b) a := by
  funext k
  by_cases hn : nameOf a.title = nameOf b.title
  · have hne : extensionOf a.title ≠ extensionOf b.title := by
      intro he
      apply hkey
      unfold fileKey
      rw [hn, he]
    by_cases hk : k = nameOf b.title
    · rw [addFile_apply_eq (addFile G a) b k hk,
        addFile_apply_eq (addFile G b) a k (hk.trans hn.symm),
        addFile_apply_eq G a k (hk.trans hn.symm),
        addFile_apply_eq G b k hk]
      by_cases hea : extensionOf a.title ∈ ALLOWED_EXTENSIONS <;>
        by_cases heb : extensionOf b.title ∈ ALLOWED_EXTENSIONS <;>
        simp [hea, heb]
      exact setExtension_comm _ _ _ _ _ hne hea heb
    · have hka : k ≠ nameOf a.title := fun h => hk (h.trans hn)
      rw [addFile_apply_ne (addFile G a) b k hk, addFile_apply_ne G a k hka,
        addFile_apply_ne (addFile G b) a k hka, addFile_apply_ne G b k hk]
  · by_cases hka : k = nameOf a.title <;> by_cases hkb : k = nameOf b.title
    · exact absurd (hka.symm.trans hkb) hn
    · rw [addFile_apply_ne (addFile G a) b k hkb, addFile_apply_eq G a k hka,
        addFile_apply_eq (addFile G b) a k hka, addFile_apply_ne G b k hkb]
    · rw [addFile_apply_eq (addFile G a) b k hkb, addFile_apply_ne G a k hka,
        addFile_apply_ne (addFile G b) a k hka, addFile_apply_eq G b k hkb]
    · rw [addFile_apply_ne (addFile G a) b k hkb, addFile_apply_ne G a k hka,
        addFile_apply_ne (addFile G b) a k hka, addFile_apply_ne G b k hkb]

/-- C9: group collection is order-independent — two workspace item lists
whose flattened binary files are permutations of one another, with no two
files sharing the same derived (base name, extension) key, produce the
same group mapping; and when the same key does occur more than once, the
bytes of the file processed last are the ones stored (last-write-wins:
after any prior state, one more step stores that file's buffer). -/
theorem claim_C9_order_independence (st : Groups × List String)
    (l1 l2 : List WorkspaceItem) (G : Groups) (f : FileItem) :
    (extractGroups st l1).1 = (flattenFiles l1).foldl addFile st.1 ∧
    ((flattenFiles l1).Perm (flattenFiles l2) →
      List.Pairwise (fun x y => fileKey x ≠ fileKey y) (flattenFiles l1) →
      (extractGroups st l1).1 = (extractGroups st l2).1) ∧
    (extensionOf f.title ∈ ALLOWED_EXTENSIONS →
      ∃ g, addFile G f (nameOf f.title) = some g ∧
        getExtension g (extensionOf f.title) = some f.bytes) := by
  refine ⟨extractGroups_fst st l1, ?_, ?_⟩
  · intro hperm hpair
    rw [extractGroups_fst st l1, extractGroups_fst st l2]
    refine List.Perm.foldl_eq' hperm ?_ st.1
    intro x hx y hy z
    by_cases hxy : x = y
    · rw [hxy]
    · exact addFile_comm x y
        (List.Pairwise.forall (fun p q h => h.symm) hpair hx hy hxy) z
  · intro he
    refine ⟨setExtension ((G (nameOf f.title)).getD {}) (extensionOf f.title) f.bytes,
      ?_, getExtension_setExtension _ _ _ he⟩
    rw [addFile_apply_eq G f (nameOf f.title) rfl, if_pos he]

/-- Witness for C9: the same two files in two orders (one inside a folder)
give the same groups; a trailing duplicate key stores the later bytes. -/
theorem claim_C9_order_independence_witness :
    ((List.Perm (flattenFiles [WorkspaceItem.binary "a.shp" 1,
        WorkspaceItem.folder [WorkspaceItem.binary "a.dbf" 2]])
      (flattenFiles [WorkspaceItem.folder [WorkspaceItem.binary "a.dbf" 2],
        WorkspaceItem.binary "a.shp" 1])) ∧
     List.Pairwise (fun x y => fileKey x ≠ fileKey y)
       (flattenFiles [WorkspaceItem.binary "a.shp" 1,
         WorkspaceItem.folder [WorkspaceItem.binary "a.dbf" 2]]) ∧
     extensionOf (FileItem.mk "a.shp" 9).title ∈ ALLOWED_EXTENSIONS) ∧
    (extractGroups (emptyGroups, []) [WorkspaceItem.binary "a.shp" 1,
        WorkspaceItem.folder [WorkspaceItem.binary "a.dbf" 2]]).1 =
      (extractGroups (emptyGroups, []) [WorkspaceItem.folder [WorkspaceItem.binary "a.dbf" 2],
        WorkspaceItem.binary "a.shp" 1]).1 ∧
    (∃ g, addFile (addFile emptyGroups ⟨"a.shp", 1⟩) ⟨"a.shp", 9⟩
        (nameOf (FileItem.mk "a.shp" 9).title) = some g ∧
      getExtension g (extensionOf (FileItem.mk "a.shp" 9).title) = some 9) := by
  have hf1 : flattenFiles [WorkspaceItem.binary "a.shp" 1,
      WorkspaceItem.folder [WorkspaceItem.binary "a.dbf" 2]] =
      [⟨"a.shp", 1⟩, ⟨"a.dbf", 2⟩] := by
    simp [flattenFiles]
  have hf2 : flattenFiles [WorkspaceItem.folder [WorkspaceItem.binary "a.dbf" 2],
      WorkspaceItem.binary "a.shp" 1] =
      [⟨"a.dbf", 2⟩, ⟨"a.shp", 1⟩] := by
    simp [flattenFiles]
  have hperm : List.Perm (flattenFiles [WorkspaceItem.binary "a.shp" 1,
      WorkspaceItem.folder [WorkspaceItem.binary "a.dbf" 2]])
      (flattenFiles [WorkspaceItem.folder [WorkspaceItem.binary "a.dbf" 2],
        WorkspaceItem.binary "a.shp" 1]) := by
    rw [hf1, hf2]
    decide
  have hpair : List.Pairwise (fun x y => fileKey x ≠ fileKey y)
      (flattenFiles [WorkspaceItem.binary "a.shp" 1,
        WorkspaceItem.folder [WorkspaceItem.binary "a.dbf" 2]]) := by
    rw [hf1]
    decide
  have he : extensionOf (FileItem.mk "a.shp" 9).title ∈ ALLOWED_EXTENSIONS := by decide
  have h := claim_C9_order_independence (emptyGroups, [])
    [WorkspaceItem.binary "a.shp" 1, WorkspaceItem.folder [WorkspaceItem.binary "a.dbf" 2]]
    [WorkspaceItem.folder [WorkspaceItem.binary "a.dbf" 2], WorkspaceItem.binary "a.shp" 1]
    (addFile emptyGroups ⟨"a.shp", 1⟩) ⟨"a.shp", 9⟩
  exact ⟨⟨hperm, hpair, he⟩, h.2.1 hperm hpair, h.2.2 he⟩

/-- Counterexample to C1 as stated: `a.xyz` has an unrecognized extension,
yet processing it does not leave the mapping "the same as if the item were
absent" — an entry (keyed `a`) is created anyway. -/
theorem claim_C1_counterexample :
    extensionOf "a.xyz" ∉ ALLOWED_EXTENSIONS ∧
    (extractGroups (emptyGroups, []) [WorkspaceItem.binary "a.xyz" 7]).1 ≠
      (extractGroups (emptyGroups, []) []).1 := by
  constructor
  · decide
  · intro h
    have h1 : (extractGroups (emptyGroups, []) [WorkspaceItem.binary "a.xyz" 7]).1 =
        addFile emptyGroups ⟨"a.xyz", 7⟩ := by
      rw [extractGroups_fst]
      simp [flattenFiles]
    have h0 : (extractGroups (emptyGroups, []) ([] : List WorkspaceItem)).1 =
        emptyGroups := by
      rw [extractGroups]
    rw [h1, h0] at h
    exact absurd (congrFun h "a") (by decide)

/-- C1 as amended: an opaque-binary item with an unrecognized extension is
skipped with a diagnostic and its bytes appear in no group; the mapping is
unchanged except that a (possibly empty) group entry is created under the
item's derived base name (it is NOT always the mapping with the item
absent). -/
theorem claim_C1_unrecognized_extension_amended (st : Groups × List String)
    (item : FileItem) (hext : extensionOf item.title ∉ ALLOWED_EXTENSIONS) :
    (addToGroups st item).2 =
      st.2 ++ ["Unsupported extension " ++ extensionOf item.title] ∧
    (addToGroups st item).1 = (fun k =>
      if k = nameOf item.title then some ((st.1 (nameOf item.title)).getD {})
      else st.1 k) ∧
    (∀ k g, (addToGroups st item).1 k = some g →
      groupHasBuffer g item.bytes = true →
      ∃ g0, st.1 k = some g0 ∧ groupHasBuffer g0 item.bytes = true) := by
  have h2 : (addToGroups st item).1 = (fun k =>
      if k = nameOf item.title then some ((st.1 (nameOf item.title)).getD {})
      else st.1 k) := by
    unfold addToGroups
    simp only [if_neg hext]
    funext k
    by_cases hk : k = nameOf item.title <;> simp [hk] <;>
      cases st.1 (nameOf item.title) <;> rfl
  refine ⟨?_, h2, ?_⟩
  · unfold addToGroups
    simp [hext]
  · intro k g hl hb
    rw [h2] at hl
    simp only at hl
    by_cases hk : k = nameOf item.title
    · rw [if_pos hk] at hl
      cases hst : st.1 (nameOf item.title) with
      | none =>
          rw [hst] at hl
          simp only [Option.getD_none, Option.some.injEq] at hl
          rw [← hl] at hb
          simp [groupHasBuffer] at hb
      | some g0 =>
          rw [hst] at hl
          simp only [Option.getD_some, Option.some.injEq] at hl
          rw [← hl] at hb
          exact ⟨g0, by rw [hk, hst], hb⟩
    · rw [if_neg hk] at hl
      exact ⟨g, hl, hb⟩

/-- Witness for the amended C1 at the concrete item `a.xyz`. -/
theorem claim_C1_unrecognized_extension_amended_witness :
    (addToGroups (emptyGroups, []) ⟨"a.xyz", 7⟩).2 =
      [] ++ ["Unsupported extension " ++ extensionOf "a.xyz"] ∧
    (addToGroups (emptyGroups, []) ⟨"a.xyz", 7⟩).1 = (fun k =>
      if k = nameOf "a.xyz" then some ((emptyGroups (nameOf "a.xyz")).getD {})
      else emptyGroups k) ∧
    (∀ k g, (addToGroups (emptyGroups, []) ⟨"a.xyz", 7⟩).1 k = some g →
      groupHasBuffer g 7 = true →
      ∃ g0, emptyGroups k = some g0 ∧ groupHasBuffer g0 7 = true) :=
  claim_C1_unrecognized_extension_amended (emptyGroups, []) ⟨"a.xyz", 7⟩ (by decide)

theorem addFile_isSome (G : Groups) (f : FileItem) (k : String)
    (h : (G k).isSome = true) : ((addFile G f) k).isSome = true := by
  by_cases hk : k = nameOf f.title
  · rw [addFile_apply_eq G f k hk]
    rfl
  · rw [addFile_apply_ne G f k hk]
    exact h

theorem foldl_addFile_isSome (l : List FileItem) :
    ∀ (G : Groups) (k : String), (G k).isSome = true →
      ((l.foldl addFile G) k).isSome = true := by
  induction l with
  | nil => intro G k h; exact h
  | cons a l ih =>
      intro G k h
      rw [List.foldl_cons]
      exact ih (addFile G a) k (addFile_isSome G a k h)

theorem foldl_addFile_mem (l : List FileItem) :
    ∀ (G : Groups) (f : FileItem), f ∈ l →
      ((l.foldl addFile G) (nameOf f.title)).isSome = true := by
  induction l with
  | nil => intro G f h; exact absurd h (List.not_mem_nil f)
  | cons a l ih =>
      intro G f h
      rw [List.foldl_cons]
      rcases List.mem_cons.mp h with rfl | hmem
      · refine foldl_addFile_isSome l (addFile G f) (nameOf f.title) ?_
        rw [addFile_apply_eq G f (nameOf f.title) rfl]
        rfl
      · exact ih (addFile G a) f hmem

/-- C10: `addToGroups` inserts a group entry keyed by the title minus its
last 4 characters before validating the extension, so an unrecognized-
suffix item still leaves a (possibly empty) `ShapeGroup` entry under its
derived base name — and that entry survives into the mapping handed to the
geometry-loading stage. -/
theorem claim_C10_entry_before_validation (st : Groups × List String)
    (item : FileItem) (items : List WorkspaceItem) (f : FileItem) :
    ((addToGroups st item).1 (nameOf item.title)).isSome = true ∧
    (st.1 (nameOf item.title) = none → extensionOf item.title ∉ ALLOWED_EXTENSIONS →
      (addToGroups st item).1 (nameOf item.title) = some {}) ∧
    (f ∈ flattenFiles items →
      ((extractGroups st items).1 (nameOf f.title)).isSome = true) := by
  refine ⟨?_, ?_, ?_⟩
  · rw [addToGroups_fst, addFile_apply_eq st.1 item (nameOf item.title) rfl]
    rfl
  · intro h0 hext
    rw [addToGroups_fst, addFile_apply_eq st.1 item (nameOf item.title) rfl,
      if_neg hext, h0]
    rfl
  · intro hf
    rw [extractGroups_fst]
    exact foldl_addFile_mem (flattenFiles items) st.1 f hf

/-- Witness for C10 at the concrete item `a.xyz` over an empty state. -/
theorem claim_C10_entry_before_validation_witness :
    ((addToGroups (emptyGroups, []) ⟨"a.xyz", 7⟩).1 (nameOf "a.xyz")).isSome = true ∧
    (addToGroups (emptyGroups, []) ⟨"a.xyz", 7⟩).1 (nameOf "a.xyz") = some {} ∧
    ((extractGroups (emptyGroups, []) [WorkspaceItem.binary "a.xyz" 7]).1
      (nameOf "a.xyz")).isSome = true := by
  have h := claim_C10_entry_before_validation (emptyGroups, []) ⟨"a.xyz", 7⟩
    [WorkspaceItem.binary "a.xyz" 7] ⟨"a.xyz", 7⟩
  refine ⟨h.1, h.2.1 rfl (by decide), h.2.2 ?_⟩
  rw [show flattenFiles [WorkspaceItem.binary "a.xyz" 7] = [⟨"a.xyz", 7⟩] from by
    simp [flattenFiles]]
  exact List.mem_singleton.mpr rfl
